import Mathlib

/-!
Shallow embedding of the candidate-job compatibility engine of the
`Ai_Powered_job_MatchMaking` repository, centred on
`server/services/aiMatching.js` and `server/services/resumeParser.js`.

Conventions of the embedding:
* JavaScript numbers are modelled with exact arithmetic (`ℚ`, `ℝ`, `ℤ`);
  `Math.round` becomes `jsRound`, i.e. `⌊x + 1/2⌋` (round half up), which is
  the JS behaviour for every non-NaN argument.
* A thrown JS error is an `Except.error` carrying the error `message`.
* Calls into the generative/embedding backend are abstracted as parameters
  holding the outcome of the call (`Except JsError …`), since the backend is
  an external service; everything the repository computes from that outcome
  is translated faithfully.
-/

set_option maxHeartbeats 1000000
set_option linter.unusedVariables false

/-- JS `Math.round` on exact values: round half toward positive infinity. -/
def jsRound (x : ℚ) : ℤ := ⌊x + 1/2⌋

/-- A thrown JS error value: only its `message` property is ever inspected. -/
structure JsError where
  message : String
deriving DecidableEq, Repr

/-- The score record assembled by `calculateJobMatchScore`
(aiMatching.js, lines 169-175). -/
structure MatchScores where
  skillsMatch : ℤ
  experienceMatch : ℤ
  educationMatch : ℤ
  locationMatch : ℤ
  overallScore : ℤ
deriving DecidableEq, Repr

/-- Embeds `calculateJobMatchScore` (aiMatching.js, lines 167-213).  The four
dimension computations are passed in as already-run outcomes (`Except`),
because the skills path may call the network.  The source wraps the whole
body in a single `try`/`catch`: if any of the four scorer calls throws, the
`catch` (lines 203-212) returns the all-zero score object; otherwise each
dimension keeps its scorer's value and `overallScore` is
`Math.round(skills*0.4 + experience*0.3 + education*0.2 + location*0.1)`
(lines 195-200). -/
def calculateJobMatchScore (skillsCalc expCalc eduCalc locCalc : Except JsError ℤ) :
    MatchScores :=
  match skillsCalc, expCalc, eduCalc, locCalc with
  | .ok s, .ok e, .ok d, .ok l =>
      ⟨s, e, d, l, jsRound ((s : ℚ) * 0.4 + (e : ℚ) * 0.3 + (d : ℚ) * 0.2 + (l : ℚ) * 0.1)⟩
  | _, _, _, _ => ⟨0, 0, 0, 0, 0⟩

/-- The value accumulated by the loop of `cosineSimilarity` (aiMatching.js
lines 57-65): `dotList a b = a[0]*b[0] + a[1]*b[1] + …`.  With `a = b` it is
the sum of squares accumulated into `normA`/`normB`. -/
def dotList : List ℝ → List ℝ → ℝ
  | a :: as, b :: bs => a * b + dotList as bs
  | _, _ => 0

/-- Embeds `cosineSimilarity` (aiMatching.js lines 52-75): throws when the two
vectors differ in length; returns 0 when either vector has norm 0; otherwise
returns the dot product divided by the product of the Euclidean norms. -/
noncomputable def cosineSimilarity (vecA vecB : List ℝ) : Except JsError ℝ :=
  if vecA.length ≠ vecB.length then
    .error ⟨"Vectors must have the same length"⟩
  else
    let dotProduct := dotList vecA vecB
    let normA := Real.sqrt (dotList vecA vecA)
    let normB := Real.sqrt (dotList vecB vecB)
    if normA = 0 ∨ normB = 0 then .ok 0
    else .ok (dotProduct / (normA * normB))

/-- JS `Math.round` on a real argument (round half up). -/
noncomputable def jsRoundR (x : ℝ) : ℤ := ⌊x + 1/2⌋

/-- The skills-dimension computation on the embedding path of
`calculateJobMatchScore` (aiMatching.js lines 178-180):
`Math.round(cosineSimilarity(resume.skillsEmbedding, job.embedding) * 100)`.
A throw inside `cosineSimilarity` propagates out of this computation into the
surrounding `try` block. -/
noncomputable def skillsFromEmbeddings (skillsEmbedding jobEmbedding : List ℝ) :
    Except JsError ℤ :=
  (cosineSimilarity skillsEmbedding jobEmbedding).map (fun sim => jsRoundR (sim * 100))

/-- JS `String.prototype.toLowerCase` (ASCII characters, which is all the
repository's section headers and skill names use). -/
def jsToLower (s : String) : String := ⟨s.data.map Char.toLower⟩

/-- JS `text.split(/\s+/)`: split on maximal whitespace runs.  A leading or
trailing run contributes an empty-string element, and the empty string splits
to `[""]` — exactly the JS behaviour.  `prevWs` records whether the previous
character belonged to a whitespace run. -/
def jsSplitWSGo : Bool → List Char → List Char → List (List Char)
  | _, acc, [] => [acc.reverse]
  | prevWs, acc, c :: cs =>
    if c.isWhitespace then
      if prevWs then jsSplitWSGo true acc cs
      else acc.reverse :: jsSplitWSGo true [] cs
    else jsSplitWSGo false (c :: acc) cs

/-- The word list of `generateFallbackEmbedding` line 99:
`text.toLowerCase().split(/\s+/)` (lower-casing applied by the caller). -/
def jsWords (s : String) : List String :=
  (jsSplitWSGo false [] s.data).map (fun l => ⟨l⟩)

/-- One step of `wordCount[word] = (wordCount[word] || 0) + 1` on an
insertion-ordered association list standing for the JS object. -/
def bumpWord : List (String × ℕ) → String → List (String × ℕ)
  | [], w => [(w, 1)]
  | (k, n) :: rest, w =>
      if k = w then (k, n + 1) :: rest else (k, n) :: bumpWord rest w

/-- aiMatching.js lines 100-107: frequency counts of the words of length > 2,
keyed in insertion order. -/
def buildWordCount (words : List String) : List (String × ℕ) :=
  words.foldl (fun wc w => if w.length > 2 then bumpWord wc w else wc) []

/-- Lookup `wordCount[w]` (0 when absent). -/
def lookupCount : List (String × ℕ) → String → ℕ
  | [], _ => 0
  | (k, n) :: rest, w => if k = w then n else lookupCount rest w

/-- Numeric value of a digit string. -/
def digitsToNat (cs : List Char) : ℕ :=
  cs.foldl (fun n c => n * 10 + (c.toNat - 48)) 0

/-- Whether a JS property key is an array index (ECMA-262): the canonical
decimal representation of an integer below 2^32 - 1. -/
def isArrayIndexKey (s : String) : Bool :=
  match s.data with
  | [] => false
  | c :: cs =>
      (c :: cs).all Char.isDigit && (c != '0' || cs.isEmpty) &&
        digitsToNat (c :: cs) < 4294967295

/-- Insertion step of an ascending sort by numeric value. -/
def insertByIndexVal (x : String) : List String → List String
  | [] => [x]
  | y :: ys =>
      if digitsToNat x.data ≤ digitsToNat y.data then x :: y :: ys
      else y :: insertByIndexVal x ys

/-- Ascending insertion sort by numeric value of the key. -/
def sortByIndexVal : List String → List String
  | [] => []
  | x :: xs => insertByIndexVal x (sortByIndexVal xs)

/-- The enumeration order of `Object.keys` (ECMA-262
OrdinaryOwnPropertyKeys): keys that are array indices first, in ascending
numeric order, then the remaining string keys in insertion order. -/
def jsObjectKeys (ks : List String) : List String :=
  sortByIndexVal (ks.filter (fun k => isArrayIndexKey k))
    ++ ks.filter (fun k => !isArrayIndexKey k)

/-- Embeds `generateFallbackEmbedding` (aiMatching.js lines 97-124): 50 components;
component `i` is `wordCount[uniqueWords[i]] / totalWords` while
`i < uniqueWords.length` (where `uniqueWords = Object.keys(wordCount)` and
`totalWords` counts every split element, short words included), and 0
afterwards. -/
def generateFallbackEmbedding (text : String) : List ℚ :=
  let words := jsWords (jsToLower text)
  let wordCount := buildWordCount words
  let totalWords := words.length
  let uniqueWords := jsObjectKeys (wordCount.map Prod.fst)
  (List.range 50).map (fun i =>
    match uniqueWords[i]? with
    | some w => (lookupCount wordCount w : ℚ) / (totalWords : ℚ)
    | none => 0)

/-- Removes duplicates keeping the first occurrence (`seen` accumulates the
words already emitted). -/
def dedupFirstAux (seen : List String) : List String → List String
  | [] => []
  | w :: ws =>
      if w ∈ seen then dedupFirstAux seen ws
      else w :: dedupFirstAux (seen ++ [w]) ws

/-- Removes duplicates keeping the first occurrence. -/
def dedupFirst (l : List String) : List String := dedupFirstAux [] l

/-- The fallback-embedding vector exactly as claim C7 words it: component `i`
is the frequency count of the `i`-th distinct word of length > 2 in ENCOUNTER
order, divided by the total word count, and 0 when fewer than 50 such
distinct words exist. -/
def claimFallbackEmbedding (text : String) : List ℚ :=
  let words := jsWords (jsToLower text)
  let longWords := words.filter (fun w => w.length > 2)
  let distinct := dedupFirst longWords
  (List.range 50).map (fun i =>
    match distinct[i]? with
    | some w => (longWords.count w : ℚ) / (words.length : ℚ)
    | none => 0)

/-- Claim C7 amended: as `claimFallbackEmbedding`, except that the distinct
words are enumerated in JS object-key order — distinct words that are array
index strings come first in ascending numeric order, the rest in encounter
order. -/
def amendedFallbackEmbedding (text : String) : List ℚ :=
  let words := jsWords (jsToLower text)
  let longWords := words.filter (fun w => w.length > 2)
  let distinct := jsObjectKeys (dedupFirst longWords)
  (List.range 50).map (fun i =>
    match distinct[i]? with
    | some w => (longWords.count w : ℚ) / (words.length : ℚ)
    | none => 0)

/-- JS `String.prototype.includes`: substring containment. -/
def jsIncludes (s pat : String) : Bool :=
  s.data.tails.any (fun t => pat.data.isPrefixOf t)

/-- Embeds `generateEmbedding` (aiMatching.js lines 78-94).  The primary backend
call (`model.embedContent` on the text truncated to 8000 characters) is
abstracted as its outcome `primary`.  On a throw, the code falls back to
`generateFallbackEmbedding` only when the error message contains "quota" or
"429" (an empty message is falsy in JS and also contains neither, so the
conjunct `error.message && …` coincides with the containment test); any
other failure is re-thrown as "Failed to generate embedding". -/
def generateEmbedding (primary : Except JsError (List ℚ)) (text : String) :
    Except JsError (List ℚ) :=
  match primary with
  | .ok v => .ok v
  | .error e =>
      if jsIncludes e.message "quota" || jsIncludes e.message "429" then
        .ok (generateFallbackEmbedding text)
      else
        .error ⟨"Failed to generate embedding"⟩

/-- The year/month components `calculateTotalExperience` reads off a parsed
JS `Date` (`getFullYear()` and zero-based `getMonth()`); parsing of the
stored date strings is done by the JS runtime, so entries carry the parsed
components. -/
structure JsDate where
  year : ℤ
  month : ℤ
deriving DecidableEq, Repr

/-- One entry of `resume.extractedData.experience` as read by
`calculateTotalExperience` (only the two optional date fields are read). -/
structure ExpEntry where
  startDate : Option JsDate
  endDate : Option JsDate
deriving DecidableEq, Repr

/-- Embeds `job.requirements.experience`: only `min` is read, through
`jobExperience.min || 0` (so an absent minimum behaves as 0). -/
structure JobExperience where
  min : Option ℤ
deriving DecidableEq, Repr

/-- Embeds `calculateTotalExperience` (aiMatching.js lines 309-322): over the
entries having both a start and an end date, sum
`(end.year - start.year) * 12 + (end.month - start.month)` months, then
convert with `Math.round(totalMonths / 12)`. -/
def calculateTotalExperience (experience : List ExpEntry) : ℤ :=
  let totalMonths := (experience.map (fun exp =>
    match exp.startDate, exp.endDate with
    | some s, some e => (e.year - s.year) * 12 + (e.month - s.month)
    | _, _ => 0)).sum
  jsRound ((totalMonths : ℚ) / 12)

/-- Embeds `calculateExperienceMatch` (aiMatching.js lines 293-306).  Both inputs
are `Option`-valued to reflect the JS `!jobExperience` / `!resumeExperience`
guards.  When `jobExperience` is truthy but the résumé experience list is
absent or empty the guard returns 0 — even when no minimum is specified. -/
def calculateExperienceMatch (resumeExperience : Option (List ExpEntry))
    (jobExperience : Option JobExperience) : ℤ :=
  if jobExperience.isNone ∨ resumeExperience.isNone
      ∨ (resumeExperience.getD []).isEmpty then
    if jobExperience.isSome then 0 else 100
  else
    let totalExperience := calculateTotalExperience (resumeExperience.getD [])
    let requiredExperience := (jobExperience.getD ⟨none⟩).min.getD 0
    if totalExperience ≥ requiredExperience then 100
    else jsRound ((totalExperience : ℚ) / (requiredExperience : ℚ) * 100)

/-- A skill record: only the `name` field is read by the skills matchers. -/
structure Skill where
  name : String
deriving DecidableEq, Repr

/-- Embeds `calculateSkillsMatchFallback` (aiMatching.js lines 259-290): lower-case
both name lists; a job skill found verbatim among the résumé skills counts 1
(`exactMatches`), one merely related by substring containment in either
direction counts 0.5; the score is `Math.round` of the clamped percentage
`totalMatches / jobSkillNames.length * 100`. -/
def calculateSkillsMatchFallback (resumeSkills jobSkills : List Skill) : ℤ :=
  if resumeSkills.isEmpty ∨ jobSkills.isEmpty then 0
  else
    let resumeSkillNames := resumeSkills.map (fun s => jsToLower s.name)
    let jobSkillNames := jobSkills.map (fun s => jsToLower s.name)
    let exactMatches := (jobSkillNames.filter
      (fun jobSkill => resumeSkillNames.contains jobSkill)).length
    let partMatches := (jobSkillNames.filter
      (fun jobSkill => !resumeSkillNames.contains jobSkill &&
        resumeSkillNames.any (fun resumeSkill =>
          jsIncludes resumeSkill jobSkill || jsIncludes jobSkill resumeSkill))).length
    let totalMatches : ℚ := (exactMatches : ℚ) + (partMatches : ℚ) * 0.5
    let matchPercentage := totalMatches / (jobSkillNames.length : ℚ) * 100
    jsRound (min (max matchPercentage 0) 100)

/-- The failure thrown by `parseAIJsonResponse`: the JS code throws an
`Error` with this `message`, and its `catch` (aiMatching.js lines 39-43)
logs the first 500 characters of the raw response
(`text.substring(0, 500)`) for diagnostics before re-throwing; the embedding
carries that logged snippet on the error value. -/
structure ParseFailure where
  message : String
  loggedSnippet : String
deriving DecidableEq, Repr

/-- Embeds `text.replace(/```json|```/g, '')` (aiMatching.js line 18): scan left to
right; at each position the alternation tries "```json" first, then "```";
a match is removed and scanning resumes after it.  `fuel` only bounds the
recursion (every step consumes at least one character, so `fuel = l.length`
always suffices; the fuel-0 case is unreachable from `stripFences`). -/
def stripFencesGo : ℕ → List Char → List Char
  | 0, l => l
  | _ + 1, [] => []
  | fuel + 1, c :: cs =>
      if ("```json".data).isPrefixOf (c :: cs) then
        stripFencesGo fuel ((c :: cs).drop 7)
      else if ("```".data).isPrefixOf (c :: cs) then
        stripFencesGo fuel ((c :: cs).drop 3)
      else c :: stripFencesGo fuel cs

/-- Removes every Markdown code-fence marker. -/
def stripFences (l : List Char) : List Char := stripFencesGo l.length l

/-- JS `String.prototype.trim`. -/
def trimChars (l : List Char) : List Char :=
  ((l.dropWhile Char.isWhitespace).reverse.dropWhile Char.isWhitespace).reverse

/-- JS `indexOf(c)`: index of the first occurrence, if any (`-1` in JS). -/
def firstIdx (c : Char) (l : List Char) : Option ℕ :=
  l.findIdx? (fun d => d = c)

/-- JS `lastIndexOf(c)`: index of the last occurrence, if any (`-1` in JS). -/
def lastIdx (c : Char) (l : List Char) : Option ℕ :=
  (l.reverse.findIdx? (fun d => d = c)).map (fun i => l.length - 1 - i)

/-- JS `substring(i, j + 1)`: the characters at indices `i, …, j`. -/
def substringIncl (l : List Char) (i j : ℕ) : List Char := (l.take (j + 1)).drop i

/-- The opening curly brace (code point 123). -/
def braceOpen : Char := Char.ofNat 123

/-- The closing curly brace (code point 125). -/
def braceClose : Char := Char.ofNat 125

/-- The fence-stripped, trimmed response text (aiMatching.js line 18). -/
def cleanedOf (text : String) : List Char := trimChars (stripFences text.data)

/-- The array-shaped attempt of `parseAIJsonResponse` (aiMatching.js lines
26-33): the substring from the first `[` to the last `]` when the latter
comes strictly after the former, else the throw. -/
def tryArrayBounds (cleaned : List Char) (text : String) : Except ParseFailure String :=
  match firstIdx '[' cleaned, lastIdx ']' cleaned with
  | some a, some b =>
      if a < b then .ok ⟨substringIncl cleaned a b⟩
      else .error ⟨"No valid JSON found in AI response", ⟨text.data.take 500⟩⟩
  | _, _ => .error ⟨"No valid JSON found in AI response", ⟨text.data.take 500⟩⟩

/-- Embeds `parseAIJsonResponse` (aiMatching.js lines 15-44): strip the Markdown
fences, trim, and locate the first opening and the last closing curly brace;
when both exist and the closing one does not precede the opening one, the
enclosed substring is handed to `JSON.parse`; otherwise the same procedure
runs with square brackets; otherwise the function throws "No valid JSON
found in AI response", logging the first 500 characters of the raw text.
`JSON.parse` itself is the JS builtin, so the embedding returns the exact
substring handed to it. -/
def parseAIJsonResponse (text : String) : Except ParseFailure String :=
  match firstIdx braceOpen (cleanedOf text), lastIdx braceClose (cleanedOf text) with
  | some i, some j =>
      if j < i then tryArrayBounds (cleanedOf text) text
      else .ok ⟨substringIncl (cleanedOf text) i j⟩
  | _, _ => tryArrayBounds (cleanedOf text) text

/-- Split a character list at every separator character (JS
`split(/[\,\|]/)` and `split(/\r?\n/)` shapes: every separator occurrence
splits, empty segments preserved). -/
def splitOnPred (p : Char → Bool) : List Char → List (List Char)
  | [] => [[]]
  | c :: cs =>
      if p c then [] :: splitOnPred p cs
      else
        match splitOnPred p cs with
        | t :: ts => (c :: t) :: ts
        | [] => [[c]]

/-- JS word character, `\w` = [A-Za-z0-9_]. -/
def isWordChar (c : Char) : Bool := c.isAlphanum || c = '_'

/-- The regex `\b` boundary after a matched header stem: end of input or a
non-word character. -/
def boundaryAfter : List Char → Bool
  | [] => true
  | c :: _ => !isWordChar c

/-- Try one regex alternative at the start of the lower-cased line. -/
def tryStem (l : List Char) (stem : String) : Option String :=
  if stem.data.isPrefixOf l && boundaryAfter (l.drop stem.length) then some stem
  else none

/-- An alternative with an optional plural: the greedy `s?` first tries to
consume the "s" and backtracks to the bare stem when the word boundary
fails. -/
def tryAlt (l : List Char) (stem : String) (optS : Bool) : Option String :=
  if optS then
    match tryStem l (stem ++ "s") with
    | some m => some m
    | none => tryStem l stem
  else tryStem l stem

/-- Embeds `line.match(sectionRegex)` followed by `m[1].toLowerCase()`
(resumeParser.js lines 374 and 378-380).  The case-insensitive regex
`^(skills?|technical skills?|projects?|experience|work experience|education|certifications?|languages?)\b[:\-]?`
tries the alternatives left to right; the captured group, lower-cased,
becomes the new section key.  The trailing `[:\-]?` is optional and outside
the capture, so it affects neither success nor the key. -/
def matchSectionHeader (line : String) : Option String :=
  let l := (jsToLower line).data
  [("skill", true), ("technical skill", true), ("project", true),
    ("experience", false), ("work experience", false), ("education", false),
    ("certification", true), ("language", true)].findSome?
    (fun alt => tryAlt l alt.1 alt.2)

/-- Step `sections[key] = sections[key] || []` on the insertion-ordered
association list standing for the JS object. -/
def ensureSection : List (String × List String) → String → List (String × List String)
  | [], key => [(key, [])]
  | (k, ls) :: rest, key =>
      if k = key then (k, ls) :: rest else (k, ls) :: ensureSection rest key

/-- Step `sections[key] = sections[key] || []; sections[key].push(line)`. -/
def pushToSection : List (String × List String) → String → String →
    List (String × List String)
  | [], key, line => [(key, [line])]
  | (k, ls) :: rest, key, line =>
      if k = key then (k, ls ++ [line]) :: rest
      else (k, ls) :: pushToSection rest key line

/-- The section-bucketing loop of `ruleBasedExtraction` (resumeParser.js
lines 375-386): a line matching the header regex only switches the current
bucket (its remaining content is discarded); any other line is appended to
the current bucket, which starts as "other". -/
def buildSections (lines : List String) : List (String × List String) :=
  (lines.foldl (fun st line =>
    match matchSectionHeader line with
    | some key => (ensureSection st.1 key, key)
    | none => (pushToSection st.1 st.2 line, st.2)) ([], "other")).1

/-- Object-key lookup on the section map (`sections[key]`, `undefined` when
the key was never created). -/
def getSection : List (String × List String) → String → Option (List String)
  | [], _ => none
  | (k, ls) :: rest, key => if k = key then some ls else getSection rest key

/-- Embeds `s.replace(/[••●\-\*]/g, ' ')` (resumeParser.js line 389):
`•` is the bullet itself and `●` the black circle. -/
def replaceBullets (l : List Char) : List Char :=
  l.map (fun c => if c = '•' ∨ c = '●' ∨ c = '-' ∨ c = '*' then ' ' else c)

/-- Embeds `splitList` (resumeParser.js lines 388-392): bullets to spaces, split on
commas/pipes, trim, keep the pieces of length in (0, 80). -/
def splitList (s : String) : List String :=
  ((splitOnPred (fun c => c == ',' || c == '|') (replaceBullets s.data)).map
    (fun t => (⟨trimChars t⟩ : String))).filter
    (fun x => x.length > 0 && x.length < 80)

/-- Embeds `l.replace(/^[-•\*]\s*/, '')`: strip one leading bullet character and
the whitespace run after it. -/
def stripBullet (s : String) : String :=
  match s.data with
  | c :: rest =>
      if c = '-' ∨ c = '•' ∨ c = '*' then ⟨rest.dropWhile Char.isWhitespace⟩
      else s
  | [] => s

/-- Embeds `l.split(sep)[0]`: the part before the first occurrence of `sep` (the
whole string when `sep` never occurs). -/
def beforeFirstSub (sep : List Char) : List Char → List Char
  | [] => []
  | c :: cs =>
      if sep.isPrefixOf (c :: cs) then []
      else c :: beforeFirstSub sep cs

/-- A skill object of the rule-based extractor (its `category`/`level` are
always the empty string and `yearsOfExperience` always undefined, so only
the dynamic `name` is modelled). -/
structure RbSkill where
  name : String
deriving DecidableEq, Repr

/-- An experience record of the rule-based extractor: `position` is the text
before " at " (capped at 80 chars), `description` the whole line; the other
fields are constant empties. -/
structure RbExperience where
  position : String
  description : String
deriving DecidableEq, Repr

/-- An education record: `institution` is the whole line; the other fields
are constant empties. -/
structure RbEducation where
  institution : String
deriving DecidableEq, Repr

/-- A project record: `name` is the trimmed text before the first colon
(capped at 80 chars), `description` the line, `technologies` its
`splitList`; `url` and dates are constant empties. -/
structure RbProject where
  name : String
  description : String
  technologies : List String
deriving DecidableEq, Repr

/-- A certification record (`name` only; the rest constant empties). -/
structure RbCertification where
  name : String
deriving DecidableEq, Repr

/-- A language record (`name` only; `proficiency` constant empty). -/
structure RbLanguage where
  name : String
deriving DecidableEq, Repr

/-- The output of `ruleBasedExtraction` for the fields the engine reads.
`nameLine` is `lines[0] || ''`; the regex-extracted website, the constant
empty summary/achievements and the constant parts of `personalInfo` are not
modelled — no claim concerns them. -/
structure RbProfile where
  nameLine : String
  experience : List RbExperience
  education : List RbEducation
  skills : List RbSkill
  certifications : List RbCertification
  projects : List RbProject
  languages : List RbLanguage
deriving DecidableEq, Repr

/-- Embeds `ruleBasedExtraction` (resumeParser.js lines 371-444): split into
trimmed non-empty lines, bucket them under the most recent section header,
then build the lists exactly as the source does (same `||` fallbacks
between the singular/plural bucket keys, same per-list caps). -/
def ruleBasedExtraction (text : String) : RbProfile :=
  let lines := (((splitOnPred (fun c => c == '\n') text.data).map
      (fun l => trimChars l)).filter (fun l => !l.isEmpty)).map
      (fun l => (⟨l⟩ : String))
  let sections := buildSections lines
  let nameLine := lines.headD ""
  let skillsBlock := String.intercalate " "
    (((getSection sections "skills").orElse
      (fun _ => getSection sections "technical skills")).getD [])
  let skillNames := dedupFirst (splitList skillsBlock)
  let skills := (skillNames.map (fun n => RbSkill.mk n)).take 100
  let projectsLines := (getSection sections "projects").getD []
  let projects := (((projectsLines.map stripBullet).filter
      (fun l => l.length > 0)).map (fun l =>
      RbProject.mk (⟨(trimChars (beforeFirstSub (":".data) l.data)).take 80⟩)
        l (splitList l))).take 20
  let expLines := (((getSection sections "experience").orElse
      (fun _ => getSection sections "work experience")).getD []).map stripBullet
  let experience := ((expLines.filter (fun l => l.length > 0)).map
      (fun l => RbExperience.mk ⟨(beforeFirstSub (" at ".data) l.data).take 80⟩ l)).take 20
  let eduLines := ((getSection sections "education").getD []).map stripBullet
  let education := (eduLines.map (fun l => RbEducation.mk l)).take 10
  let certLines := (((getSection sections "certifications").orElse
      (fun _ => getSection sections "certification")).getD []).map stripBullet
  let certifications := (certLines.map (fun l => RbCertification.mk l)).take 20
  let langBlock := String.intercalate " " ((getSection sections "languages").getD [])
  let languages := ((splitList langBlock).map (fun n => RbLanguage.mk n)).take 20
  RbProfile.mk nameLine experience education skills certifications projects languages

/-- C1: for every combination of dimension scores `skillsMatch`,
`experienceMatch`, `educationMatch`, `locationMatch`, each an integer in
[0,100], the aggregator's overall score equals
`round(skills*0.40 + experience*0.30 + education*0.20 + location*0.10)` and
is always an integer in [0,100]. -/
theorem C1_overall_weighted_round (s e d l : ℤ)
    (hs0 : 0 ≤ s) (hs1 : s ≤ 100) (he0 : 0 ≤ e) (he1 : e ≤ 100)
    (hd0 : 0 ≤ d) (hd1 : d ≤ 100) (hl0 : 0 ≤ l) (hl1 : l ≤ 100) :
    (calculateJobMatchScore (.ok s) (.ok e) (.ok d) (.ok l)).overallScore
        = jsRound ((s : ℚ) * 0.4 + (e : ℚ) * 0.3 + (d : ℚ) * 0.2 + (l : ℚ) * 0.1) ∧
    0 ≤ (calculateJobMatchScore (.ok s) (.ok e) (.ok d) (.ok l)).overallScore ∧
    (calculateJobMatchScore (.ok s) (.ok e) (.ok d) (.ok l)).overallScore ≤ 100 := by
  have hs0' : (0 : ℚ) ≤ (s : ℚ) := by exact_mod_cast hs0
  have hs1' : (s : ℚ) ≤ 100 := by exact_mod_cast hs1
  have he0' : (0 : ℚ) ≤ (e : ℚ) := by exact_mod_cast he0
  have he1' : (e : ℚ) ≤ 100 := by exact_mod_cast he1
  have hd0' : (0 : ℚ) ≤ (d : ℚ) := by exact_mod_cast hd0
  have hd1' : (d : ℚ) ≤ 100 := by exact_mod_cast hd1
  have hl0' : (0 : ℚ) ≤ (l : ℚ) := by exact_mod_cast hl0
  have hl1' : (l : ℚ) ≤ 100 := by exact_mod_cast hl1
  refine ⟨rfl, ?_, ?_⟩
  · show (0 : ℤ) ≤ jsRound _
    refine Int.le_floor.mpr ?_
    push_cast
    linarith
  · show jsRound _ ≤ 100
    have h : jsRound ((s : ℚ) * 0.4 + (e : ℚ) * 0.3 + (d : ℚ) * 0.2 + (l : ℚ) * 0.1) < 101 := by
      refine Int.floor_lt.mpr ?_
      push_cast
      linarith
    omega

/-- Witness for C1 at the concrete input (80, 100, 100, 100). -/
theorem C1_overall_weighted_round_witness :
    (calculateJobMatchScore (.ok 80) (.ok 100) (.ok 100) (.ok 100)).overallScore
        = jsRound ((80 : ℚ) * 0.4 + (100 : ℚ) * 0.3 + (100 : ℚ) * 0.2 + (100 : ℚ) * 0.1) ∧
    0 ≤ (calculateJobMatchScore (.ok 80) (.ok 100) (.ok 100) (.ok 100)).overallScore ∧
    (calculateJobMatchScore (.ok 80) (.ok 100) (.ok 100) (.ok 100)).overallScore ≤ 100 := by
  have h := C1_overall_weighted_round 80 100 100 100 (by decide) (by decide) (by decide)
    (by decide) (by decide) (by decide) (by decide) (by decide)
  push_cast at h ⊢
  exact h

/-- C2 counterexample: the experience scorer throws while the other three
scorers succeed (skills 80, education 100, location 100).  The claim predicts
the score record ⟨80, 0, 100, 100, 62⟩ (only the failing dimension replaced
by 0); the code's single catch-all (aiMatching.js lines 203-212) instead
returns the all-zero record, discarding the successful dimensions too. -/
theorem C2_counterexample_all_dimensions_zeroed :
    calculateJobMatchScore (.ok 80) (.error ⟨"unexpected scorer failure"⟩) (.ok 100) (.ok 100)
        = ⟨0, 0, 0, 0, 0⟩ ∧
    (⟨0, 0, 0, 0, 0⟩ : MatchScores) ≠ ⟨80, 0, 100, 100, 62⟩ := by
  exact ⟨rfl, by decide⟩

/-- C2 (amended): if any dimension scorer throws, the aggregator catches the
error and returns the all-zero score object — every dimension and the overall
score become 0, not just the failing dimension; no error propagates to the
caller.  When all four scorers succeed, each dimension keeps its scorer's
value and the overall score is the weighted round. -/
theorem C2_scorer_failure_zeroes_whole_match (sk ex ed lo : Except JsError ℤ) :
    (∀ s e d l, sk = .ok s → ex = .ok e → ed = .ok d → lo = .ok l →
      calculateJobMatchScore sk ex ed lo
        = ⟨s, e, d, l, jsRound ((s : ℚ) * 0.4 + (e : ℚ) * 0.3 + (d : ℚ) * 0.2 + (l : ℚ) * 0.1)⟩) ∧
    (((∃ er, sk = .error er) ∨ (∃ er, ex = .error er) ∨
      (∃ er, ed = .error er) ∨ (∃ er, lo = .error er)) →
      calculateJobMatchScore sk ex ed lo = ⟨0, 0, 0, 0, 0⟩) := by
  constructor
  · rintro s e d l rfl rfl rfl rfl
    rfl
  · intro h
    cases sk <;> cases ex <;> cases ed <;> cases lo <;>
      first
        | rfl
        | (rcases h with ⟨er, he⟩ | ⟨er, he⟩ | ⟨er, he⟩ | ⟨er, he⟩ <;>
            exact Except.noConfusion he)

/-- Witness for C2 (amended) with the education scorer failing. -/
theorem C2_scorer_failure_zeroes_whole_match_witness :
    calculateJobMatchScore (.ok 50) (.ok 70) (.error ⟨"bad education data"⟩) (.ok 90)
        = ⟨0, 0, 0, 0, 0⟩ :=
  (C2_scorer_failure_zeroes_whole_match (.ok 50) (.ok 70)
    (.error ⟨"bad education data"⟩) (.ok 90)).2
    (Or.inr (Or.inr (Or.inl ⟨⟨"bad education data"⟩, rfl⟩)))

/-- C4 counterexample: a primary failure whose message mentions neither
"quota" nor "429" (a network failure, say) is not converted into the
fallback embedding — `generateEmbedding` re-throws, so a backend error does
propagate to the caller, contrary to the claim. -/
theorem C4_counterexample_non_quota_error_propagates :
    generateEmbedding (.error ⟨"socket hang up"⟩) "hello world resume"
        = .error ⟨"Failed to generate embedding"⟩ ∧
    generateEmbedding (.error ⟨"socket hang up"⟩) "hello world resume"
        ≠ .ok (generateFallbackEmbedding "hello world resume") := by
  have h : generateEmbedding (.error ⟨"socket hang up"⟩) "hello world resume"
      = .error ⟨"Failed to generate embedding"⟩ := by
    rw [generateEmbedding]
    rw [if_neg (by decide)]
  refine ⟨h, ?_⟩
  rw [h]
  simp

/-- C4 (amended): `generateEmbedding` returns the primary embedding on
success; on failure it returns the deterministic fallback exactly when the
error message contains "quota" or "429", and otherwise re-throws the error
"Failed to generate embedding" to its caller. -/
theorem C4_fallback_only_for_quota (primary : Except JsError (List ℚ)) (text : String) :
    (∀ v, primary = .ok v → generateEmbedding primary text = .ok v) ∧
    (∀ e, primary = .error e →
      ((jsIncludes e.message "quota" || jsIncludes e.message "429") = true →
        generateEmbedding primary text = .ok (generateFallbackEmbedding text)) ∧
      ((jsIncludes e.message "quota" || jsIncludes e.message "429") = false →
        generateEmbedding primary text = .error ⟨"Failed to generate embedding"⟩)) := by
  refine ⟨?_, ?_⟩
  · rintro v rfl
    rfl
  · rintro e rfl
    constructor <;> intro h <;> simp [generateEmbedding, h]

/-- Witness for C4 (amended): a quota-style failure takes the fallback. -/
theorem C4_fallback_only_for_quota_witness :
    generateEmbedding (.error ⟨"429 Too Many Requests"⟩) "data engineer"
        = .ok (generateFallbackEmbedding "data engineer") :=
  ((C4_fallback_only_for_quota (.error ⟨"429 Too Many Requests"⟩) "data engineer").2
    ⟨"429 Too Many Requests"⟩ rfl).1 (by decide)

theorem buildWordCount_eq_foldl_filter (ws : List String) (wc : List (String × ℕ)) :
    ws.foldl (fun wc w => if w.length > 2 then bumpWord wc w else wc) wc
      = (ws.filter (fun w => w.length > 2)).foldl bumpWord wc := by
  induction ws generalizing wc with
  | nil => rfl
  | cons w ws ih =>
      by_cases h : w.length > 2
      · rw [List.foldl_cons, if_pos h, List.filter_cons, if_pos (by simpa using h),
          List.foldl_cons]
        exact ih (bumpWord wc w)
      · rw [List.foldl_cons, if_neg h, List.filter_cons, if_neg (by simpa using h)]
        exact ih wc

theorem bumpWord_map_fst_mem (wc : List (String × ℕ)) (w : String)
    (h : w ∈ wc.map Prod.fst) :
    (bumpWord wc w).map Prod.fst = wc.map Prod.fst := by
  induction wc with
  | nil => simp at h
  | cons p rest ih =>
      obtain ⟨k, n⟩ := p
      by_cases hk : k = w
      · simp [bumpWord, hk]
      · simp only [List.map_cons, List.mem_cons] at h
        rcases h with h | h
        · exact absurd h.symm hk
        · simp [bumpWord, hk, ih h]

theorem bumpWord_map_fst_not_mem (wc : List (String × ℕ)) (w : String)
    (h : w ∉ wc.map Prod.fst) :
    (bumpWord wc w).map Prod.fst = wc.map Prod.fst ++ [w] := by
  induction wc with
  | nil => simp [bumpWord]
  | cons p rest ih =>
      obtain ⟨k, n⟩ := p
      simp only [List.map_cons, List.mem_cons] at h
      push_neg at h
      simp [bumpWord, Ne.symm h.1, ih h.2]

theorem foldl_bumpWord_map_fst (ws : List String) (wc : List (String × ℕ)) :
    (ws.foldl bumpWord wc).map Prod.fst
      = wc.map Prod.fst ++ dedupFirstAux (wc.map Prod.fst) ws := by
  induction ws generalizing wc with
  | nil => simp [dedupFirstAux]
  | cons w ws ih =>
      by_cases h : w ∈ wc.map Prod.fst
      · rw [List.foldl_cons, ih, bumpWord_map_fst_mem _ _ h]
        simp [dedupFirstAux, h]
      · rw [List.foldl_cons, ih, bumpWord_map_fst_not_mem _ _ h]
        simp [dedupFirstAux, h, List.append_assoc]

theorem lookupCount_bumpWord_self (wc : List (String × ℕ)) (w : String) :
    lookupCount (bumpWord wc w) w = lookupCount wc w + 1 := by
  induction wc with
  | nil => simp [bumpWord, lookupCount]
  | cons p rest ih =>
      obtain ⟨k, n⟩ := p
      by_cases hk : k = w
      · simp [bumpWord, lookupCount, hk]
      · simp [bumpWord, lookupCount, hk, ih]

theorem lookupCount_bumpWord_other (wc : List (String × ℕ)) (v w : String)
    (h : v ≠ w) :
    lookupCount (bumpWord wc v) w = lookupCount wc w := by
  induction wc with
  | nil => simp [bumpWord, lookupCount, h]
  | cons p rest ih =>
      obtain ⟨k, n⟩ := p
      by_cases hk : k = v
      · subst hk
        simp [bumpWord, lookupCount, h]
      · simp [bumpWord, lookupCount, hk, ih]

theorem lookupCount_foldl_bumpWord (ws : List String) (wc : List (String × ℕ))
    (w : String) :
    lookupCount (ws.foldl bumpWord wc) w = lookupCount wc w + ws.count w := by
  induction ws generalizing wc with
  | nil => simp
  | cons v ws ih =>
      rw [List.foldl_cons, ih]
      by_cases hv : v = w
      · subst hv
        rw [lookupCount_bumpWord_self]
        simp [List.count_cons]
        omega
      · rw [lookupCount_bumpWord_other _ _ _ hv]
        simp [List.count_cons, hv]

/-- C7 counterexample: on the text "aaa aaa 111" the code's vector starts
`[1/3, 2/3, …]` while the claim's encounter-order description predicts
`[2/3, 1/3, …]`: the JS object enumerates the numeric key "111" before
"aaa", so component `i` is NOT the frequency of the `i`-th distinct word in
encounter order. -/
theorem C7_counterexample_numeric_key_order :
    (generateFallbackEmbedding "aaa aaa 111")[0]? = some (1/3) ∧
    (claimFallbackEmbedding "aaa aaa 111")[0]? = some (2/3) ∧
    generateFallbackEmbedding "aaa aaa 111" ≠ claimFallbackEmbedding "aaa aaa 111" := by
  have hcode : (generateFallbackEmbedding "aaa aaa 111")[0]? = some (1/3) := by
    rw [generateFallbackEmbedding]
    rw [List.getElem?_map, List.getElem?_range (by norm_num)]
    rw [show jsObjectKeys ((buildWordCount (jsWords (jsToLower "aaa aaa 111"))).map
      Prod.fst) = ["111", "aaa"] from by decide]
    simp only [Option.map_some', List.getElem?_cons_zero]
    rw [show lookupCount (buildWordCount (jsWords (jsToLower "aaa aaa 111"))) "111" = 1
      from by decide]
    rw [show (jsWords (jsToLower "aaa aaa 111")).length = 3 from by decide]
    norm_num
  have hclaim : (claimFallbackEmbedding "aaa aaa 111")[0]? = some (2/3) := by
    rw [claimFallbackEmbedding]
    rw [List.getElem?_map, List.getElem?_range (by norm_num)]
    rw [show dedupFirst ((jsWords (jsToLower "aaa aaa 111")).filter
      (fun w => w.length > 2)) = ["aaa", "111"] from by decide]
    simp only [Option.map_some', List.getElem?_cons_zero]
    rw [show ((jsWords (jsToLower "aaa aaa 111")).filter
      (fun w => w.length > 2)).count "aaa" = 2 from by decide]
    rw [show (jsWords (jsToLower "aaa aaa 111")).length = 3 from by decide]
    norm_num
  refine ⟨hcode, hclaim, fun he => ?_⟩
  rw [he, hclaim] at hcode
  have : (2 : ℚ)/3 = 1/3 := by injection hcode
  norm_num at this

/-- C7 (amended): for every input string, including the empty string, the
fallback embedding has exactly 50 components, and component `i` equals the
frequency count of the `i`-th distinct word of length > 2 — taken in JS
object-key enumeration order: distinct words that are array-index strings
first in ascending numeric order, then the others in encounter order —
divided by the total word count, and 0 when fewer than 50 such distinct
words exist. -/
theorem C7_fallback_embedding_amended (text : String) :
    (generateFallbackEmbedding text).length = 50 ∧
    generateFallbackEmbedding text = amendedFallbackEmbedding text := by
  constructor
  · simp [generateFallbackEmbedding]
  · unfold generateFallbackEmbedding amendedFallbackEmbedding
    have hkeys : (buildWordCount (jsWords (jsToLower text))).map Prod.fst
        = dedupFirst ((jsWords (jsToLower text)).filter (fun w => w.length > 2)) := by
      rw [buildWordCount, buildWordCount_eq_foldl_filter, foldl_bumpWord_map_fst]
      simp [dedupFirst]
    have hcount : ∀ w, lookupCount (buildWordCount (jsWords (jsToLower text))) w
        = ((jsWords (jsToLower text)).filter (fun w => w.length > 2)).count w := by
      intro w
      rw [buildWordCount, buildWordCount_eq_foldl_filter, lookupCount_foldl_bumpWord]
      simp [lookupCount]
    refine List.map_congr_left ?_
    intro i _
    rw [hkeys]
    cases hg : (jsObjectKeys (dedupFirst
        ((jsWords (jsToLower text)).filter (fun w => w.length > 2))))[i]? with
    | none => rfl
    | some w => simp only [hcount w]

/-- C5 counterexample: a job whose experience requirement object is present
but specifies no minimum (so the required minimum is 0), matched against a
résumé whose experience list is present but empty.  Candidate years = 0 ≥ 0,
so the claim demands a score of 100, but the guard
`resumeExperience.length === 0` (aiMatching.js line 294-296) returns 0. -/
theorem C5_counterexample_empty_experience :
    calculateExperienceMatch (some []) (some ⟨none⟩) = 0 ∧
    calculateTotalExperience [] = 0 ∧
    calculateExperienceMatch (some []) (some ⟨none⟩) ≠ 100 := by
  have h0 : calculateExperienceMatch (some []) (some ⟨none⟩) = 0 := by decide
  refine ⟨h0, ?_, by rw [h0]; decide⟩
  norm_num [calculateTotalExperience, jsRound]

/-- C5 (amended): candidate total experience is the month-span sum of the
entries with both dates, rounded to years.  The score is 100 whenever the
job has no experience requirement object at all; when the requirement object
is present, the score is 0 whenever the résumé experience list is absent or
empty — even if the requirement specifies no minimum; otherwise the score is
100 when candidate years ≥ the required minimum (`min || 0`) and
`round(100 × candidateYears / requiredMinimum)` when below. -/
theorem C5_experience_match_amended (resumeExp : List ExpEntry) (jobExp : JobExperience)
    (hne : resumeExp ≠ []) :
    (∀ r, calculateExperienceMatch r none = 100) ∧
    (∀ j, calculateExperienceMatch none (some j) = 0) ∧
    (∀ j, calculateExperienceMatch (some []) (some j) = 0) ∧
    calculateExperienceMatch (some resumeExp) (some jobExp)
      = if calculateTotalExperience resumeExp ≥ jobExp.min.getD 0 then 100
        else jsRound ((calculateTotalExperience resumeExp : ℚ)
            / (jobExp.min.getD 0 : ℚ) * 100) := by
  refine ⟨?_, ?_, ?_, ?_⟩
  · intro r
    simp [calculateExperienceMatch]
  · intro j
    simp [calculateExperienceMatch]
  · intro j
    simp [calculateExperienceMatch]
  · rw [calculateExperienceMatch, if_neg (by simp [hne])]
    simp only [Option.getD_some]

/-- Witness for C5 (amended): one 24-month entry against a 4-year minimum
scores 50; one 60-month entry against the same job scores 100. -/
theorem C5_experience_match_amended_witness :
    calculateExperienceMatch (some [⟨some ⟨2020, 0⟩, some ⟨2022, 0⟩⟩])
        (some ⟨some 4⟩) = 50 ∧
    calculateExperienceMatch (some [⟨some ⟨2020, 0⟩, some ⟨2025, 0⟩⟩])
        (some ⟨some 4⟩) = 100 := by
  have h2 : calculateTotalExperience [⟨some ⟨2020, 0⟩, some ⟨2022, 0⟩⟩] = 2 := by
    norm_num [calculateTotalExperience, jsRound]
  have h5 : calculateTotalExperience [⟨some ⟨2020, 0⟩, some ⟨2025, 0⟩⟩] = 5 := by
    norm_num [calculateTotalExperience, jsRound]
  constructor
  · rw [(C5_experience_match_amended [⟨some ⟨2020, 0⟩, some ⟨2022, 0⟩⟩] ⟨some 4⟩
      (by simp)).2.2.2, h2]
    rw [if_neg (by norm_num [Option.getD_some])]
    norm_num [Option.getD_some, jsRound]
  · rw [(C5_experience_match_amended [⟨some ⟨2020, 0⟩, some ⟨2025, 0⟩⟩] ⟨some 4⟩
      (by simp)).2.2.2, h5]
    rw [if_pos (by norm_num [Option.getD_some])]

/-- Monotonicity of `Math.round`. -/
theorem jsRound_mono {x y : ℚ} (h : x ≤ y) : jsRound x ≤ jsRound y :=
  Int.floor_mono (by linarith)

/-- Rounding a value clamped to [0,100] lands in [0,100]. -/
theorem jsRound_clamp_bounds (x : ℚ) :
    0 ≤ jsRound (min (max x 0) 100) ∧ jsRound (min (max x 0) 100) ≤ 100 := by
  constructor
  · refine Int.le_floor.mpr ?_
    have h1 : (0 : ℚ) ≤ max x 0 := le_max_right x 0
    have h2 : (0 : ℚ) ≤ min (max x 0) 100 := le_min h1 (by norm_num)
    push_cast
    linarith
  · have h2 : min (max x 0) 100 ≤ 100 := min_le_right _ _
    have h : jsRound (min (max x 0) 100) < 101 := by
      refine Int.floor_lt.mpr ?_
      push_cast
      linarith
    omega

/-- Membership in a skill-name list survives appending a new name. -/
theorem contains_append_singleton (R : List String) (x j : String)
    (h : R.contains j = true) : (R ++ [x]).contains j = true :=
  List.elem_iff.mpr (List.mem_append_left _ (List.elem_iff.mp h))

/-- An existential over a skill-name list survives appending a new name. -/
theorem any_append_singleton (R : List String) (x : String) (f : String → Bool)
    (h : R.any f = true) : (R ++ [x]).any f = true := by
  rw [List.any_append, h, Bool.true_or]

/-- The job skills matched exactly and the ones matched only by containment
are disjoint, so the two filters add up to the filter of the disjunction. -/
theorem length_filter_or_eq (J : List String) (p q : String → Bool) :
    (J.filter (fun a => p a || q a)).length
      = (J.filter p).length + (J.filter (fun a => !p a && q a)).length := by
  induction J with
  | nil => rfl
  | cons a J ih =>
      cases hp : p a <;> cases hq : q a <;>
        simp [List.filter_cons, hp, hq, ih] <;> omega

/-- A pointwise-weaker filter catches at most as many list elements. -/
theorem length_filter_mono (J : List String) (p q : String → Bool)
    (h : ∀ a, p a = true → q a = true) :
    (J.filter p).length ≤ (J.filter q).length := by
  induction J with
  | nil => exact le_refl 0
  | cons a J ih =>
      cases hp : p a
      · cases hq : q a <;> simp [List.filter_cons, hp, hq] <;> omega
      · have hq := h a hp
        simp [List.filter_cons, hp, hq]
        omega

/-- C10: for every non-empty job skill list, appending an additional skill
to the résumé skill list never decreases `calculateSkillsMatchFallback`, and
the returned score is always an integer in [0,100]. -/
theorem C10_skills_fallback_monotone (resumeSkills jobSkills : List Skill)
    (extra : Skill) (hjob : jobSkills ≠ []) :
    calculateSkillsMatchFallback resumeSkills jobSkills
      ≤ calculateSkillsMatchFallback (resumeSkills ++ [extra]) jobSkills ∧
    0 ≤ calculateSkillsMatchFallback resumeSkills jobSkills ∧
    calculateSkillsMatchFallback resumeSkills jobSkills ≤ 100 := by
  have hbounds : ∀ rs js, 0 ≤ calculateSkillsMatchFallback rs js ∧
      calculateSkillsMatchFallback rs js ≤ 100 := by
    intro rs js
    rw [calculateSkillsMatchFallback]
    by_cases h : rs.isEmpty ∨ js.isEmpty
    · rw [if_pos h]
      exact ⟨le_refl 0, by norm_num⟩
    · rw [if_neg h]
      exact jsRound_clamp_bounds _
  refine ⟨?_, hbounds _ _⟩
  by_cases hre : resumeSkills.isEmpty
  · have h0 : calculateSkillsMatchFallback resumeSkills jobSkills = 0 := by
      rw [calculateSkillsMatchFallback, if_pos (Or.inl hre)]
    rw [h0]
    exact (hbounds _ _).1
  · have hcond : ¬(resumeSkills.isEmpty ∨ jobSkills.isEmpty) := by
      simp_all
    have hcond2 : ¬((resumeSkills ++ [extra]).isEmpty ∨ jobSkills.isEmpty) := by
      simp_all
    rw [calculateSkillsMatchFallback, calculateSkillsMatchFallback,
      if_neg hcond, if_neg hcond2]
    have hmap : (resumeSkills ++ [extra]).map (fun s => jsToLower s.name)
        = resumeSkills.map (fun s => jsToLower s.name) ++ [jsToLower extra.name] := by
      simp
    rw [hmap]
    set R := resumeSkills.map (fun s => jsToLower s.name) with hR
    set J := jobSkills.map (fun s => jsToLower s.name) with hJ
    set x := jsToLower extra.name with hx
    apply jsRound_mono
    apply min_le_min _ le_rfl
    apply max_le_max _ le_rfl
    have hJne : J ≠ [] := by
      rw [hJ]
      simp [hjob]
    have hn : (0 : ℚ) < (J.length : ℚ) := by
      have := List.length_pos.mpr hJne
      exact_mod_cast this
    have hE : (J.filter (fun j => R.contains j)).length
        ≤ (J.filter (fun j => (R ++ [x]).contains j)).length := by
      refine length_filter_mono J _ _ ?_
      intro a ha
      exact contains_append_singleton R x a ha
    have hQ : (J.filter (fun j => R.contains j || R.any (fun r =>
          jsIncludes r j || jsIncludes j r))).length
        ≤ (J.filter (fun j => (R ++ [x]).contains j || (R ++ [x]).any (fun r =>
          jsIncludes r j || jsIncludes j r))).length := by
      refine length_filter_mono J _ _ ?_
      intro a ha
      simp only [Bool.or_eq_true] at ha ⊢
      rcases ha with h | h
      · exact Or.inl (contains_append_singleton R x a h)
      · exact Or.inr (any_append_singleton R x _ h)
    have h1 := length_filter_or_eq J (fun j => R.contains j)
      (fun j => R.any (fun r => jsIncludes r j || jsIncludes j r))
    have h2 := length_filter_or_eq J (fun j => (R ++ [x]).contains j)
      (fun j => (R ++ [x]).any (fun r => jsIncludes r j || jsIncludes j r))
    have htot : ((J.filter (fun j => R.contains j)).length : ℚ)
        + ((J.filter (fun j => !R.contains j && R.any (fun r =>
            jsIncludes r j || jsIncludes j r))).length : ℚ) * 0.5
        ≤ ((J.filter (fun j => (R ++ [x]).contains j)).length : ℚ)
        + ((J.filter (fun j => !(R ++ [x]).contains j && (R ++ [x]).any (fun r =>
            jsIncludes r j || jsIncludes j r))).length : ℚ) * 0.5 := by
      have hnat : 2 * (J.filter (fun j => R.contains j)).length
            + (J.filter (fun j => !R.contains j && R.any (fun r =>
              jsIncludes r j || jsIncludes j r))).length
          ≤ 2 * (J.filter (fun j => (R ++ [x]).contains j)).length
            + (J.filter (fun j => !(R ++ [x]).contains j && (R ++ [x]).any (fun r =>
              jsIncludes r j || jsIncludes j r))).length := by
        omega
      have hcast : ((2 * (J.filter (fun j => R.contains j)).length
            + (J.filter (fun j => !R.contains j && R.any (fun r =>
              jsIncludes r j || jsIncludes j r))).length : ℕ) : ℚ)
          ≤ ((2 * (J.filter (fun j => (R ++ [x]).contains j)).length
            + (J.filter (fun j => !(R ++ [x]).contains j && (R ++ [x]).any (fun r =>
              jsIncludes r j || jsIncludes j r))).length : ℕ) : ℚ) := by
        exact_mod_cast hnat
      push_cast at hcast
      have h05 : (0.5 : ℚ) = 1/2 := by norm_num
      rw [h05]
      linarith
    exact mul_le_mul_of_nonneg_right
      ((div_le_div_iff_of_pos_right hn).mpr htot) (by norm_num)

/-- Witness for C10 at concrete skill lists. -/
theorem C10_skills_fallback_monotone_witness :
    calculateSkillsMatchFallback [⟨"Python"⟩] [⟨"SQL"⟩, ⟨"Python"⟩]
      ≤ calculateSkillsMatchFallback ([⟨"Python"⟩] ++ [⟨"sql"⟩]) [⟨"SQL"⟩, ⟨"Python"⟩] ∧
    0 ≤ calculateSkillsMatchFallback [⟨"Python"⟩] [⟨"SQL"⟩, ⟨"Python"⟩] ∧
    calculateSkillsMatchFallback [⟨"Python"⟩] [⟨"SQL"⟩, ⟨"Python"⟩] ≤ 100 :=
  C10_skills_fallback_monotone [⟨"Python"⟩] [⟨"SQL"⟩, ⟨"Python"⟩] ⟨"sql"⟩ (by decide)

/-- C8: the response sanitizer strips the Markdown code-fence markers and
then (1) hands the substring from the first opening to the last closing
curly brace to the JSON parser whenever the closing one follows the opening
one; (2) when no such object boundaries exist it applies the same procedure
with square brackets; and (3) when neither succeeds it raises its parse
error carrying a truncated (at most 500 character) copy of the raw
response.  Fenced JSON and JSON embedded in prose are thus extracted, and
an input containing no JSON raises the error. -/
theorem C8_sanitizer_characterization (text : String) :
    (∀ i j, firstIdx braceOpen (cleanedOf text) = some i →
      lastIdx braceClose (cleanedOf text) = some j → i ≤ j →
      parseAIJsonResponse text = .ok ⟨substringIncl (cleanedOf text) i j⟩) ∧
    ((firstIdx braceOpen (cleanedOf text) = none ∨
      lastIdx braceClose (cleanedOf text) = none ∨
      (∃ i j, firstIdx braceOpen (cleanedOf text) = some i ∧
        lastIdx braceClose (cleanedOf text) = some j ∧ j < i)) →
      (∀ a b, firstIdx '[' (cleanedOf text) = some a →
        lastIdx ']' (cleanedOf text) = some b → a < b →
        parseAIJsonResponse text = .ok ⟨substringIncl (cleanedOf text) a b⟩) ∧
      ((firstIdx '[' (cleanedOf text) = none ∨
        lastIdx ']' (cleanedOf text) = none ∨
        (∃ a b, firstIdx '[' (cleanedOf text) = some a ∧
          lastIdx ']' (cleanedOf text) = some b ∧ ¬a < b)) →
        parseAIJsonResponse text
          = .error ⟨"No valid JSON found in AI response", ⟨text.data.take 500⟩⟩ ∧
        (text.data.take 500).length ≤ 500)) := by
  constructor
  · intro i j hi hj hij
    simp only [parseAIJsonResponse, hi, hj]
    rw [if_neg (by omega)]
  · intro hobj
    constructor
    · intro a b ha hb hab
      have harr : tryArrayBounds (cleanedOf text) text
          = .ok ⟨substringIncl (cleanedOf text) a b⟩ := by
        simp only [tryArrayBounds, ha, hb]
        rw [if_pos hab]
      rcases hobj with h | h | ⟨i, j, hi, hj, hij⟩
      · cases hej : lastIdx braceClose (cleanedOf text) with
        | none => simp only [parseAIJsonResponse, h, hej]; exact harr
        | some j => simp only [parseAIJsonResponse, h, hej]; exact harr
      · cases hei : firstIdx braceOpen (cleanedOf text) with
        | none => simp only [parseAIJsonResponse, hei, h]; exact harr
        | some i => simp only [parseAIJsonResponse, hei, h]; exact harr
      · simp only [parseAIJsonResponse, hi, hj]
        rw [if_pos hij]
        exact harr
    · intro harrfail
      have hsnip : (text.data.take 500).length ≤ 500 := by
        rw [List.length_take]
        omega
      have harr : tryArrayBounds (cleanedOf text) text
          = .error ⟨"No valid JSON found in AI response", ⟨text.data.take 500⟩⟩ := by
        rcases harrfail with h | h | ⟨a, b, ha, hb, hab⟩
        · cases hb : lastIdx ']' (cleanedOf text) with
          | none => simp only [tryArrayBounds, h, hb]
          | some b => simp only [tryArrayBounds, h, hb]
        · cases ha : firstIdx '[' (cleanedOf text) with
          | none => simp only [tryArrayBounds, ha, h]
          | some a => simp only [tryArrayBounds, ha, h]
        · simp only [tryArrayBounds, ha, hb]
          rw [if_neg hab]
      refine ⟨?_, hsnip⟩
      rcases hobj with h | h | ⟨i, j, hi, hj, hij⟩
      · cases hej : lastIdx braceClose (cleanedOf text) with
        | none => simp only [parseAIJsonResponse, h, hej]; exact harr
        | some j => simp only [parseAIJsonResponse, h, hej]; exact harr
      · cases hei : firstIdx braceOpen (cleanedOf text) with
        | none => simp only [parseAIJsonResponse, hei, h]; exact harr
        | some i => simp only [parseAIJsonResponse, hei, h]; exact harr
      · simp only [parseAIJsonResponse, hi, hj]
        rw [if_pos hij]
        exact harr

/-- Witness for C8: the fenced response from the spec's example extracts the
braced JSON object. -/
theorem C8_sanitizer_characterization_witness :
    parseAIJsonResponse "```json\n\x7b\"a\":1\x7d\n```" = .ok "\x7b\"a\":1\x7d" := by
  have h := (C8_sanitizer_characterization "```json\n\x7b\"a\":1\x7d\n```").1 0 6
    (by decide) (by decide) (by decide)
  rw [h]
  exact congrArg Except.ok (by decide)

/-- The accumulated sum of squares is nonnegative. -/
theorem dotList_self_nonneg (a : List ℝ) : 0 ≤ dotList a a := by
  induction a with
  | nil => simp [dotList]
  | cons x xs ih =>
      have heq : dotList (x :: xs) (x :: xs) = x * x + dotList xs xs := rfl
      rw [heq]
      nlinarith [mul_self_nonneg x]

/-- Each member's square is at most the sum of squares. -/
theorem sq_le_dotList_self {x : ℝ} {a : List ℝ} (h : x ∈ a) :
    x * x ≤ dotList a a := by
  induction a with
  | nil => simp at h
  | cons y ys ih =>
      have heq : dotList (y :: ys) (y :: ys) = y * y + dotList ys ys := rfl
      rw [heq]
      rcases List.mem_cons.mp h with rfl | h
      · nlinarith [dotList_self_nonneg ys]
      · nlinarith [ih h, mul_self_nonneg y]

/-- The sum of squares of an all-zero vector is 0. -/
theorem dotList_self_zero {b : List ℝ} (h : ∀ x ∈ b, x = 0) :
    dotList b b = 0 := by
  induction b with
  | nil => rfl
  | cons y ys ih =>
      have heq : dotList (y :: ys) (y :: ys) = y * y + dotList ys ys := rfl
      rw [heq, h y (List.mem_cons_self y ys),
        ih (fun x hx => h x (List.mem_cons_of_mem _ hx))]
      ring

/-- The loop sum as a `Finset.range` sum over indexed entries. -/
theorem dotList_eq_sum (a : List ℝ) : ∀ b : List ℝ, a.length = b.length →
    dotList a b = ∑ i ∈ Finset.range a.length, a.getD i 0 * b.getD i 0 := by
  induction a with
  | nil => intro b h; simp [dotList]
  | cons x xs ih =>
      intro b h
      cases b with
      | nil => simp at h
      | cons y ys =>
          have heq : dotList (x :: xs) (y :: ys) = x * y + dotList xs ys := rfl
          have hlen : xs.length = ys.length := by simpa using h
          rw [heq, ih ys hlen, List.length_cons, Finset.sum_range_succ']
          simp only [List.getD_cons_succ, List.getD_cons_zero]
          ring

/-- Cauchy-Schwarz for the loop sums. -/
theorem dotList_sq_le (a b : List ℝ) (h : a.length = b.length) :
    (dotList a b) ^ 2 ≤ dotList a a * dotList b b := by
  rw [dotList_eq_sum a b h, dotList_eq_sum a a rfl, dotList_eq_sum b b rfl, ← h]
  have hcs := Finset.sum_mul_sq_le_sq_mul_sq (Finset.range a.length)
    (fun i => a.getD i 0) (fun i => b.getD i 0)
  simpa [pow_two] using hcs

/-- C9: for vectors of equal nonzero length the similarity is a value in
[-1,1]; the self-similarity of a vector with a nonzero entry is exactly 1;
and the similarity against an all-zero vector is exactly 0 — never an
error. -/
theorem C9_cosine_similarity_bounds (a b : List ℝ)
    (hlen : a.length = b.length) (hnz : a.length ≠ 0) :
    (∃ r, cosineSimilarity a b = .ok r ∧ -1 ≤ r ∧ r ≤ 1) ∧
    ((∃ x ∈ a, x ≠ 0) → cosineSimilarity a a = .ok 1) ∧
    ((∀ x ∈ b, x = 0) → cosineSimilarity a b = .ok 0) := by
  have hAnn := dotList_self_nonneg a
  have hBnn := dotList_self_nonneg b
  refine ⟨?_, ?_, ?_⟩
  · rw [cosineSimilarity, if_neg (fun hc => hc hlen)]
    by_cases h0 : Real.sqrt (dotList a a) = 0 ∨ Real.sqrt (dotList b b) = 0
    · rw [if_pos h0]
      exact ⟨0, rfl, by norm_num, by norm_num⟩
    · rw [if_neg h0]
      push_neg at h0
      have hA : 0 < Real.sqrt (dotList a a) :=
        lt_of_le_of_ne (Real.sqrt_nonneg _) (Ne.symm h0.1)
      have hB : 0 < Real.sqrt (dotList b b) :=
        lt_of_le_of_ne (Real.sqrt_nonneg _) (Ne.symm h0.2)
      have hden : 0 < Real.sqrt (dotList a a) * Real.sqrt (dotList b b) :=
        mul_pos hA hB
      have habs : |dotList a b| ≤ Real.sqrt (dotList a a) * Real.sqrt (dotList b b) := by
        have h1 : |dotList a b| = Real.sqrt ((dotList a b) ^ 2) :=
          (Real.sqrt_sq_eq_abs _).symm
        rw [h1, ← Real.sqrt_mul hAnn]
        exact Real.sqrt_le_sqrt (dotList_sq_le a b hlen)
      have hle : |dotList a b
          / (Real.sqrt (dotList a a) * Real.sqrt (dotList b b))| ≤ 1 := by
        rw [abs_div, abs_of_pos hden]
        exact div_le_one_of_le₀ habs (le_of_lt hden)
      exact ⟨_, rfl, (abs_le.mp hle).1, (abs_le.mp hle).2⟩
  · rintro ⟨x, hx, hxne⟩
    have hApos : 0 < dotList a a := by
      have h1 : x * x ≤ dotList a a := sq_le_dotList_self hx
      have h2 : 0 < x * x := mul_self_pos.mpr hxne
      linarith
    have hsA : 0 < Real.sqrt (dotList a a) := Real.sqrt_pos.mpr hApos
    rw [cosineSimilarity, if_neg (fun hc => hc rfl)]
    rw [if_neg (by rintro (h | h) <;> exact (ne_of_gt hsA) h)]
    congr 1
    rw [Real.mul_self_sqrt hAnn]
    exact div_self (ne_of_gt hApos)
  · intro hz
    have hB0 : dotList b b = 0 := dotList_self_zero hz
    rw [cosineSimilarity, if_neg (fun hc => hc hlen)]
    rw [if_pos (Or.inr (by rw [hB0, Real.sqrt_zero]))]

/-- Witness for C9 at a = [1] (self-similarity 1) and b = [0] (zero-vector
similarity 0). -/
theorem C9_cosine_similarity_bounds_witness :
    cosineSimilarity [(1 : ℝ)] [(1 : ℝ)] = .ok 1 ∧
    cosineSimilarity [(1 : ℝ)] [(0 : ℝ)] = .ok 0 := by
  have h := C9_cosine_similarity_bounds [(1 : ℝ)] [(0 : ℝ)] rfl (by decide)
  exact ⟨h.2.1 ⟨1, by simp, one_ne_zero⟩, h.2.2 (by simp)⟩

/-- C3 counterexample: on vectors of unequal length `cosineSimilarity`
throws "Vectors must have the same length" — it does not return the
defined score-0 "no similarity available" result the claim describes. -/
theorem C3_counterexample_unequal_length_throws :
    cosineSimilarity [(1 : ℝ)] [(1 : ℝ), 2]
        = .error ⟨"Vectors must have the same length"⟩ ∧
    cosineSimilarity [(1 : ℝ)] [(1 : ℝ), 2] ≠ .ok 0 := by
  have h : cosineSimilarity [(1 : ℝ)] [(1 : ℝ), 2]
      = .error ⟨"Vectors must have the same length"⟩ := by
    rw [cosineSimilarity, if_pos (by decide)]
  refine ⟨h, ?_⟩
  rw [h]
  simp

/-- C3 (amended): on vectors of unequal length `cosineSimilarity` throws;
the catch-all of `calculateJobMatchScore` converts the error into the
all-zero score object, so the caller sees score 0 for every dimension and
no exception — but the whole match is zeroed, not just the similarity
score. -/
theorem C3_unequal_length_zeroes_whole_match (a b : List ℝ)
    (h : a.length ≠ b.length) (ex ed lo : Except JsError ℤ) :
    cosineSimilarity a b = .error ⟨"Vectors must have the same length"⟩ ∧
    calculateJobMatchScore (skillsFromEmbeddings a b) ex ed lo = ⟨0, 0, 0, 0, 0⟩ := by
  have hc : cosineSimilarity a b = .error ⟨"Vectors must have the same length"⟩ := by
    rw [cosineSimilarity, if_pos h]
  refine ⟨hc, ?_⟩
  rw [skillsFromEmbeddings, hc]
  show calculateJobMatchScore (.error _) ex ed lo = _
  cases ex <;> cases ed <;> cases lo <;> rfl

/-- Witness for C3 (amended) at the vectors [1] and [1, 2]. -/
theorem C3_unequal_length_zeroes_whole_match_witness :
    cosineSimilarity [(1 : ℝ)] [(1 : ℝ), 2]
        = .error ⟨"Vectors must have the same length"⟩ ∧
    calculateJobMatchScore (skillsFromEmbeddings [(1 : ℝ)] [(1 : ℝ), 2])
        (.ok 100) (.ok 100) (.ok 100) = ⟨0, 0, 0, 0, 0⟩ :=
  C3_unequal_length_zeroes_whole_match [(1 : ℝ)] [(1 : ℝ), 2] (by decide)
    (.ok 100) (.ok 100) (.ok 100)

/-- C6 counterexample: on the one-line résumé "Skills: Python, React, SQL"
the rule-based extractor returns NO skills at all — the line matches the
section-header regex, which only switches the current bucket and discards
the content after the header on the same line, so the skills bucket stays
empty.  (Experience, education and projects are empty as the claim says.) -/
theorem C6_counterexample_inline_skills_lost :
    (ruleBasedExtraction "Skills: Python, React, SQL").skills = [] ∧
    (ruleBasedExtraction "Skills: Python, React, SQL").skills.map RbSkill.name
        ≠ ["Python", "React", "SQL"] ∧
    (ruleBasedExtraction "Skills: Python, React, SQL").experience = [] ∧
    (ruleBasedExtraction "Skills: Python, React, SQL").education = [] ∧
    (ruleBasedExtraction "Skills: Python, React, SQL").projects = [] := by
  decide

/-- C6 (amended): skills are collected only from the lines FOLLOWING the
skills header.  On the résumé "Skills:" newline "Python, React, SQL" (and
no other section content) the extractor returns exactly the skills
[Python, React, SQL] and empty experience/education/projects lists; with
header and content on one line it returns no skills, because content
sharing the header line is discarded. -/
theorem C6_skills_on_next_line :
    (ruleBasedExtraction "Skills:\nPython, React, SQL").skills.map RbSkill.name
        = ["Python", "React", "SQL"] ∧
    (ruleBasedExtraction "Skills:\nPython, React, SQL").experience = [] ∧
    (ruleBasedExtraction "Skills:\nPython, React, SQL").education = [] ∧
    (ruleBasedExtraction "Skills:\nPython, React, SQL").projects = [] ∧
    (ruleBasedExtraction "Skills: Python, React, SQL").skills = [] := by
  decide
